import Mathlib

/-!
Verification of the `WorkspaceCleaner` reclamation engine
(`src/dbacademy/dbhelper/workspace_cleaner.py`).

Strings are embedded as `List Char` so that every operation is a structural
recursion the kernel can evaluate.  Each Python method is translated into a
pure Lean function over an explicit environment record `Env` describing the
platform state seen through the API boundary; platform calls are recorded as
`Event`s, and exceptions are rendered as explicit error values.
-/

/-- Character-list strings: the embedding of Python `str` values. -/
abbrev Str := List Char

/-- Embedding of Python `str.split(d)` for a one-character delimiter `d`:
splits at every occurrence, keeping empty segments, and returns `[[]]` on the
empty string. -/
def splitOnChar (d : Char) : Str → List Str
  | [] => [[]]
  | c :: rest =>
    match splitOnChar d rest with
    | [] => [[]]
    | s :: ss => if c = d then [] :: s :: ss else (c :: s) :: ss

/-- Embedding of Python `str.lower()` (ASCII-adequate, via `Char.toLower`). -/
def lowerStr (s : Str) : Str := s.map Char.toLower

/-- An MLflow model version as returned by `mlflow_model_versions.list`. -/
structure Version where
  version : Nat
  current_stage : Str
deriving DecidableEq

/-- A `DatabricksApiException` as raised by the REST client. -/
structure ApiException where
  http_code : Nat
  error_code : Str
  message : Str
deriving DecidableEq

/-- Outcome classes of a Spark SQL statement: `analysisException` is the
`pyspark.sql.utils.AnalysisException` class that the cleaner suppresses,
`otherError` is every other exception. -/
inductive SqlErr
  | analysisException
  | otherError (msg : Str)
deriving DecidableEq

/-- An error propagating out of a handler: a REST `ApiException`, a
non-`AnalysisException` Spark error, or the archive-polling loop never
observing a clean listing (the unbounded `while` never terminating). -/
inductive PErr
  | api (e : ApiException)
  | sql (msg : Str)
  | pollHang
deriving DecidableEq

/-- One recorded call to the platform boundary. -/
inductive Event
  | clearCache
  | stopStream (name : Str)
  | awaitTermination (name : Str)
  | listFeatureTables
  | dropFeatureTable (name : Str)
  | listEndpoints
  | printWarning
  | deleteEndpoint (name : Str)
  | listModels
  | listModelVersions (name : Str) (result : List Version)
  | transitionStage (name : Str) (version : Nat) (stage : Str)
  | sleep (secs : Nat)
  | deleteModel (name : Str)
  | listExperiments
  | getStatus (name : Str)
  | deleteExperiment (name : Str)
  | showCatalogs
  | dropCatalogSql (name : Str)
  | showDatabasesIn (catalog : Str)
  | showDatabases
  | describeTable (name : Str)
  | dropDatabaseSql (name : Str)
  | rmPath (path : Str) (recurse : Bool)
  | getPool (name : Str)
  | deletePool (name : Str)
  | getPolicy (name : Str)
  | deletePolicy (name : Str)
deriving DecidableEq

/-- The platform state and configuration visible to the cleaner, i.e. the
responses of every external collaborator it consults. -/
structure Env where
  lessonName : Option Str
  enableMlSupport : Bool
  createCatalog : Bool
  catalogName : Str
  schemaName : Str
  catalogPref : Str
  schemaPref : Str
  uniqueNameLesson : Str
  uniqueNameWorkspace : Str
  activeStreams : List Str
  featureTables : List Str
  endpointsListing : Except ApiException (List Str)
  modelNames : List Str
  modelVersions : Str → List Version
  modelPolls : Str → List (List Version)
  experiments : List Str
  experimentStatus : Str → Option Str
  showDatabasesResult : List Str
  catalogs : List Str
  catalogsAfter : List Str
  sparkDefaultCatalog : Str
  ucDefaultCatalog : Str
  defaultSchemaName : Str
  databasesIn : Str → List Str
  describeLocation : Str → Option Str
  dbDropOutcome : Str → Except SqlErr Unit
  catalogDropOutcome : Str → Except SqlErr Unit
  workingDirRoot : Str
  workingDirRootExists : Bool
  datasetsPath : Str
  datasetsExists : Bool
  archivesPath : Str
  archivesExists : Bool
  workingDir : Str
  workingDirExists : Bool
  pools : List Str
  poolExists : Str → Bool
  policies : List Str
  policyExists : Str → Bool

/-- The per-segment test of the model/endpoint matcher: the condition under
which one `_`-segment `part` causes the candidate to be collected
(`if lesson_only and unique_name == part ... elif part.startswith(unique_name)`
in `_cleanup_mlflow_models` and `_cleanup_mlflow_endpoints`). -/
def partMatches (lessonOnly : Bool) (uniqueName part : Str) : Bool :=
  (lessonOnly && (uniqueName == part)) || List.isPrefixOf uniqueName part

/-- Whether a candidate name is collected at all by the matcher in
`_cleanup_mlflow_models` / `_cleanup_mlflow_endpoints`: some `_`-segment
satisfies `partMatches`. -/
def nameMatches (lessonOnly : Bool) (uniqueName name : Str) : Bool :=
  (splitOnChar '_' name).any (partMatches lessonOnly uniqueName)

/-- The collected candidate list with multiplicity, exactly as the Python
`for model in list: for part in name.split("_"): if ...: models.append(model)`
loops build it (a candidate is appended once per matching segment). -/
def matchedCandidates (lessonOnly : Bool) (uniqueName : Str) (names : List Str) : List Str :=
  names.flatMap (fun n => ((splitOnChar '_' n).filter (partMatches lessonOnly uniqueName)).map (fun _ => n))

/-- Result of one handler call: the platform calls it issued, the boolean it
returned (meaningful only when `err = none`), and the exception it raised, if
any. -/
structure HRes where
  events : List Event
  status : Bool
  err : Option PErr
deriving DecidableEq

/-- Embedding of `_get_unique_name`: the memoized unique-name lookup.  The
cache is the instance attribute `self.__unique_name`, threaded explicitly;
the returned pair is (result, new cache). -/
def get_unique_name (env : Env) (cache : Option Str) (lessonOnly : Bool) : Str × Option Str :=
  match cache with
  | some u => (u, some u)
  | none =>
    let u := if lessonOnly then env.uniqueNameLesson else env.uniqueNameWorkspace
    (u, some u)

/-- Embedding of `_stop_all_streams`: bail with `false` when no stream is
active, otherwise stop and await each stream (termination errors buried). -/
def stop_all_streams (env : Env) : HRes :=
  if env.activeStreams.isEmpty then ⟨[], false, none⟩
  else ⟨env.activeStreams.flatMap (fun s => [Event.stopStream s, Event.awaitTermination s]), true, none⟩

/-- Embedding of `_drop_feature_store_tables`: list the feature-store tables,
keep those whose name starts with the schema name (lesson) or schema-name
prefix (workspace), drop each. -/
def drop_feature_store_tables (env : Env) (lessonOnly : Bool) : HRes :=
  let pre := if lessonOnly then env.schemaName else env.schemaPref
  let tables := env.featureTables.filter (fun n => List.isPrefixOf pre n)
  if tables.isEmpty then ⟨[Event.listFeatureTables], false, none⟩
  else ⟨Event.listFeatureTables :: tables.map Event.dropFeatureTable, true, none⟩

/-- Embedding of `_cleanup_experiments`: search active experiments, keep those
whose last `/`-segment starts with the unique name, delete each one whose
workspace status reports object type `MLFLOW_EXPERIMENT`. -/
def cleanup_experiments (env : Env) (cache : Option Str) (lessonOnly : Bool) : HRes × Option Str :=
  let p := get_unique_name env cache lessonOnly
  let exps := env.experiments.filter (fun n => List.isPrefixOf p.1 ((splitOnChar '/' n).getLastD []))
  if exps.isEmpty then (⟨[Event.listExperiments], false, none⟩, p.2)
  else
    let evs := exps.flatMap (fun n =>
      Event.getStatus n ::
        (match env.experimentStatus n with
         | some t => if t = "MLFLOW_EXPERIMENT".data then [Event.deleteExperiment n] else []
         | none => []))
    (⟨Event.listExperiments :: evs, true, none⟩, p.2)

/-- The active-stage test: `version.get("current_stage").lower() in
["production", "staging"]`. -/
def isActiveStage (stage : Str) : Bool :=
  lowerStr stage == "production".data || lowerStr stage == "staging".data

/-- Number of versions of a listing still in an active stage. -/
def countActive (vs : List Version) : Nat :=
  (vs.filter (fun v => isActiveStage v.current_stage)).length

/-- The stage-transition calls issued for the initial listing: one
`transition_stage(name, v, "archived")` per active-stage version. -/
def transitionEvs (name : Str) (vs : List Version) : List Event :=
  vs.flatMap (fun v =>
    if isActiveStage v.current_stage then [Event.transitionStage name v.version "archived".data] else [])

/-- The `time.sleep(5)` calls of one poll cycle: one per version still found
in an active stage. -/
def sleepEvs (vs : List Version) : List Event :=
  vs.flatMap (fun v => if isActiveStage v.current_stage then [Event.sleep 5] else [])

/-- Embedding of the `while not all_archived` poll loop of
`_cleanup_mlflow_models`, driven by the oracle `polls` of successive listing
results.  Returns the recorded calls and whether a clean listing was reached;
an exhausted oracle renders the loop never terminating. -/
def pollLoop (name : Str) : List (List Version) → List Event × Bool
  | [] => ([], false)
  | vs :: rest =>
    if countActive vs = 0 then ([Event.listModelVersions name vs], true)
    else
      let p := pollLoop name rest
      (Event.listModelVersions name vs :: (sleepEvs vs ++ p.1), p.2)

/-- Embedding of the body of `for model in models` in
`_cleanup_mlflow_models`: list the versions, transition every active one to
"archived", poll until a listing is clean, then delete the model by name. -/
def processModel (name : Str) (initVs : List Version) (polls : List (List Version)) : List Event × Bool :=
  let p := pollLoop name polls
  (Event.listModelVersions name initVs ::
     (transitionEvs name initVs ++ (p.1 ++ (if p.2 then [Event.deleteModel name] else []))), p.2)

/-- Runs `processModel` over each matched model in order, aborting (as the
Python loop would hang) when a poll loop never observes a clean listing. -/
def processModels (env : Env) : List Str → List Event × Option PErr
  | [] => ([], none)
  | n :: rest =>
    let p := processModel n (env.modelVersions n) (env.modelPolls n)
    if p.2 then
      let q := processModels env rest
      (p.1 ++ q.1, q.2)
    else (p.1, some PErr.pollHang)

/-- Embedding of `_cleanup_mlflow_models`: list the registered models, build
the matched list (with multiplicity), bail with `false` when it is empty,
otherwise run the staged deletion state machine on each entry. -/
def cleanup_mlflow_models (env : Env) (cache : Option Str) (lessonOnly : Bool) : HRes × Option Str :=
  let p := get_unique_name env cache lessonOnly
  let models := matchedCandidates lessonOnly p.1 env.modelNames
  if models.isEmpty then (⟨[Event.listModels], false, none⟩, p.2)
  else
    let q := processModels env models
    (⟨Event.listModels :: q.1, true, q.2⟩, p.2)

/-- Embedding of `_cleanup_mlflow_endpoints`: list the serving endpoints,
treating an HTTP 404 with error code `FEATURE_DISABLED` as an empty listing
(plus a warning) and re-raising any other `DatabricksApiException`; then
match and delete each matched endpoint by name. -/
def cleanup_mlflow_endpoints (env : Env) (cache : Option Str) (lessonOnly : Bool) : HRes × Option Str :=
  let p := get_unique_name env cache lessonOnly
  match env.endpointsListing with
  | .error e =>
    if e.http_code == 404 && e.error_code == "FEATURE_DISABLED".data then
      (⟨[Event.listEndpoints, Event.printWarning], false, none⟩, p.2)
    else
      (⟨[Event.listEndpoints], false, some (PErr.api e)⟩, p.2)
  | .ok names =>
    let eps := matchedCandidates lessonOnly p.1 names
    if eps.isEmpty then (⟨[Event.listEndpoints], false, none⟩, p.2)
    else (⟨Event.listEndpoints :: eps.map Event.deleteEndpoint, true, none⟩, p.2)

/-- Embedding of `_drop_catalog`: bail with `false` unless the lesson is
configured to create a catalog, otherwise issue
`DROP CATALOG IF EXISTS ... CASCADE`, suppress `AnalysisException`, propagate
anything else, and return `true`. -/
def drop_catalog (env : Env) : HRes :=
  if !env.createCatalog then ⟨[], false, none⟩
  else
    match env.catalogDropOutcome env.catalogName with
    | .ok _ => ⟨[Event.dropCatalogSql env.catalogName], true, none⟩
    | .error .analysisException => ⟨[Event.dropCatalogSql env.catalogName], true, none⟩
    | .error (.otherError m) => ⟨[Event.dropCatalogSql env.catalogName], true, some (PErr.sql m)⟩

/-- Embedding of the static helper `_drop_database`: read the schema location
(any failure degraded to no location), issue
`DROP DATABASE IF EXISTS ... CASCADE` suppressing `AnalysisException` and
propagating anything else, then remove the location path, burying every error
of that removal (no call is recorded when the location is absent, as
`fs.rm(None)` fails before reaching the platform). -/
def drop_database (env : Env) (schemaName : Str) : List Event × Option PErr :=
  match env.dbDropOutcome schemaName with
  | .ok _ =>
    (Event.describeTable schemaName :: Event.dropDatabaseSql schemaName ::
      (match env.describeLocation schemaName with
       | some l => [Event.rmPath l false]
       | none => []), none)
  | .error .analysisException =>
    (Event.describeTable schemaName :: Event.dropDatabaseSql schemaName ::
      (match env.describeLocation schemaName with
       | some l => [Event.rmPath l false]
       | none => []), none)
  | .error (.otherError m) =>
    ([Event.describeTable schemaName, Event.dropDatabaseSql schemaName], some (PErr.sql m))

/-- Embedding of `_drop_schema`: bail with `false` when the lesson creates a
catalog, or when `SHOW DATABASES` does not list the schema; otherwise drop
the database and return `true`. -/
def drop_schema (env : Env) : HRes :=
  if env.createCatalog then ⟨[], false, none⟩
  else if !(env.showDatabasesResult.contains env.schemaName) then ⟨[Event.showDatabases], false, none⟩
  else
    let p := drop_database env env.schemaName
    ⟨Event.showDatabases :: p.1, true, p.2⟩

/-- Embedding of `_cleanup_working_dir`: bail with `false` when the working
directory does not exist, otherwise remove it recursively. -/
def cleanup_working_dir (env : Env) : HRes :=
  if !env.workingDirExists then ⟨[], false, none⟩
  else ⟨[Event.rmPath env.workingDir true], true, none⟩

/-- Embedding of `__reset_working_dir`: recursively delete the working
directory root if it exists. -/
def reset_working_dir (env : Env) : List Event :=
  if env.workingDirRootExists then [Event.rmPath env.workingDirRoot true] else []

/-- Embedding of `__reset_datasets`: recursively delete the datasets path if
it exists. -/
def reset_datasets (env : Env) : List Event :=
  if env.datasetsExists then [Event.rmPath env.datasetsPath true] else []

/-- Embedding of `__reset_archives`.  Note: the source (workspace_cleaner.py
line 107) tests `Paths.exists(self.__da.paths.datasets)` — the datasets path —
before deleting `self.__da.paths.archives`. -/
def reset_archives (env : Env) : List Event :=
  if env.datasetsExists then [Event.rmPath env.archivesPath true] else []

/-- Phase 1 of `__reset_databases`: drop every catalog whose name starts with
the catalog-name prefix, suppressing `AnalysisException` per drop. -/
def dropCatalogLoop (env : Env) : List Str → List Event × Option PErr
  | [] => ([], none)
  | c :: rest =>
    if List.isPrefixOf env.catalogPref c then
      match env.catalogDropOutcome c with
      | .ok _ =>
        let p := dropCatalogLoop env rest
        (Event.dropCatalogSql c :: p.1, p.2)
      | .error .analysisException =>
        let p := dropCatalogLoop env rest
        (Event.dropCatalogSql c :: p.1, p.2)
      | .error (.otherError m) => ([Event.dropCatalogSql c], some (PErr.sql m))
    else dropCatalogLoop env rest

/-- Inner loop of phase 2 of `__reset_databases`: inside one default catalog,
drop every schema that starts with the schema-name prefix and is not the
protected default schema. -/
def dropSchemasIn (env : Env) (c : Str) : List Str → List Event × Option PErr
  | [] => ([], none)
  | s :: rest =>
    if List.isPrefixOf env.schemaPref s && !(s == env.defaultSchemaName) then
      let p := drop_database env (c ++ '.' :: s)
      match p.2 with
      | none =>
        let q := dropSchemasIn env c rest
        (p.1 ++ q.1, q.2)
      | some e => (p.1, some e)
    else dropSchemasIn env c rest

/-- Phase 2 of `__reset_databases`: over the refreshed catalog list, visit the
two default catalogs and drop the user-specific schemas inside each. -/
def resetDatabasesPhase2 (env : Env) : List Str → List Event × Option PErr
  | [] => ([], none)
  | c :: rest =>
    if c == env.sparkDefaultCatalog || c == env.ucDefaultCatalog then
      let p := dropSchemasIn env c (env.databasesIn c)
      match p.2 with
      | none =>
        let q := resetDatabasesPhase2 env rest
        (Event.showDatabasesIn c :: (p.1 ++ q.1), q.2)
      | some e => (Event.showDatabasesIn c :: p.1, some e)
    else resetDatabasesPhase2 env rest

/-- Embedding of `__reset_databases`: drop the user-specific catalogs, then
re-list the catalogs and drop user-specific schemas from the two default
catalogs. -/
def reset_databases (env : Env) : List Event × Option PErr :=
  let p := dropCatalogLoop env env.catalogs
  match p.2 with
  | some e => (Event.showCatalogs :: p.1, some e)
  | none =>
    let q := resetDatabasesPhase2 env env.catalogsAfter
    (Event.showCatalogs :: (p.1 ++ (Event.showCatalogs :: q.1)), q.2)

/-- Embedding of `__drop_instance_pool`: look up each well-known pool name and
delete the pool when present. -/
def drop_instance_pool (env : Env) : List Event :=
  env.pools.flatMap (fun p =>
    Event.getPool p :: (if env.poolExists p then [Event.deletePool p] else []))

/-- Embedding of `__drop_cluster_policies`: look up each well-known policy
name and delete the policy when present. -/
def drop_cluster_policies (env : Env) : List Event :=
  env.policies.flatMap (fun p =>
    Event.getPolicy p :: (if env.policyExists p then [Event.deletePolicy p] else []))

/-- Runs a list of handler steps in order, concatenating their recorded calls
and collecting their returned booleans, stopping at the first step that
raises. -/
def runSteps : List HRes → List Event × List Bool × Option PErr
  | [] => ([], [], none)
  | r :: rest =>
    match r.err with
    | some e => (r.events, [r.status], some e)
    | none =>
      let p := runSteps rest
      (r.events ++ p.1, r.status :: p.2.1, p.2.2)

/-- Result of one sequencer entry point: its recorded calls, the booleans the
bool-returning handler steps produced, whether the neutral
"No action taken" line was printed, and the error that aborted the run, if
any. -/
structure RunResult where
  events : List Event
  statuses : List Bool
  noActionPrinted : Bool
  err : Option PErr
deriving DecidableEq

/-- Embedding of `reset_lesson`: clear the query cache, stop the streams,
optionally clean ML endpoints / models / experiments in lesson scope, drop
the catalog then the schema, clean the working directory last, and print
"No action taken" iff every step returned `false`. -/
def reset_lesson (env : Env) (cache : Option Str) : RunResult :=
  let s1 := stop_all_streams env
  let r2 := cleanup_mlflow_endpoints env cache true
  let r3 := cleanup_mlflow_models env r2.2 true
  let r4 := cleanup_experiments env r3.2 true
  let mlSteps := if env.enableMlSupport then [r2.1, r3.1, r4.1] else []
  let steps := s1 :: (mlSteps ++ [drop_catalog env, drop_schema env, cleanup_working_dir env])
  let p := runSteps steps
  { events := Event.clearCache :: p.1
    statuses := p.2.1
    noActionPrinted := (p.2.2 == none) && p.2.1.all (fun b => !b)
    err := p.2.2 }

/-- Embedding of `reset_learning_environment`: clear the query cache, stop
the streams, optionally clean ML resources in workspace scope, reset the
databases, delete the datasets / archives / working-dir-root paths, then drop
the instance pools and cluster policies; every handler outcome is discarded
and the completion line is printed unconditionally. -/
def reset_learning_environment (env : Env) (cache : Option Str) : RunResult :=
  let s1 := stop_all_streams env
  let fs := drop_feature_store_tables env false
  let r2 := cleanup_mlflow_endpoints env cache false
  let r3 := cleanup_mlflow_models env r2.2 false
  let r4 := cleanup_experiments env r3.2 false
  let db := reset_databases env
  let mlSteps := if env.enableMlSupport then [fs, r2.1, r3.1, r4.1] else []
  let pathSteps : List HRes :=
    [⟨reset_datasets env, false, none⟩, ⟨reset_archives env, false, none⟩,
     ⟨reset_working_dir env, false, none⟩]
  let poolSteps : List HRes :=
    [⟨drop_instance_pool env, false, none⟩, ⟨drop_cluster_policies env, false, none⟩]
  let steps := s1 :: (mlSteps ++ (⟨db.1, false, db.2⟩ :: (pathSteps ++ poolSteps)))
  let p := runSteps steps
  { events := Event.clearCache :: p.1
    statuses := p.2.1
    noActionPrinted := false
    err := p.2.2 }

/-- Pipeline-stop calls. -/
def isStopEv : Event → Bool
  | .stopStream _ => true
  | _ => false

/-- Namespace-drop calls (catalog or schema drop statements). -/
def isNsDropEv : Event → Bool
  | .dropCatalogSql _ => true
  | .dropDatabaseSql _ => true
  | _ => false

/-- Compute-pool / cluster-policy drop calls. -/
def isPoolDropEv : Event → Bool
  | .deletePool _ => true
  | .deletePolicy _ => true
  | _ => false

/-- Destructive (delete / drop / stop) calls, i.e. resource-cleanup calls as
opposed to listings, lookups, waits and presentation output. -/
def isCleanupEv : Event → Bool
  | .stopStream _ => true
  | .dropFeatureTable _ => true
  | .deleteEndpoint _ => true
  | .transitionStage _ _ _ => true
  | .deleteModel _ => true
  | .deleteExperiment _ => true
  | .dropCatalogSql _ => true
  | .dropDatabaseSql _ => true
  | .rmPath _ _ => true
  | .deletePool _ => true
  | .deletePolicy _ => true
  | _ => false

/-- Scans a trace left to right; the flag records whether a `trig` event has
been seen, and the scan fails if a `bad` event occurs once the flag is set.
`scanOK bad trig false t = true` says no `bad` call follows any `trig` call
in `t`. -/
def scanOK (bad trig : Event → Bool) : Bool → List Event → Bool
  | _, [] => true
  | s, e :: rest => cond (bad e && s) false (scanOK bad trig (s || trig e) rest)

/-- Resource family of a recorded call: 0 cache, 1 streams, 2 ML resources,
3 namespace SQL, 4 storage paths, 5 compute pools and policies. -/
def evClass : Event → Nat
  | .clearCache => 0
  | .stopStream _ => 1
  | .awaitTermination _ => 1
  | .listFeatureTables => 2
  | .dropFeatureTable _ => 2
  | .listEndpoints => 2
  | .printWarning => 2
  | .deleteEndpoint _ => 2
  | .listModels => 2
  | .listModelVersions _ _ => 2
  | .transitionStage _ _ _ => 2
  | .sleep _ => 2
  | .deleteModel _ => 2
  | .listExperiments => 2
  | .getStatus _ => 2
  | .deleteExperiment _ => 2
  | .showCatalogs => 3
  | .dropCatalogSql _ => 3
  | .showDatabasesIn _ => 3
  | .showDatabases => 3
  | .describeTable _ => 3
  | .dropDatabaseSql _ => 3
  | .rmPath _ _ => 4
  | .getPool _ => 5
  | .deletePool _ => 5
  | .getPolicy _ => 5
  | .deletePolicy _ => 5

/-- Stage-transition calls. -/
def isTransitionEv : Event → Bool
  | .transitionStage _ _ _ => true
  | _ => false

/-- Artifact-level (model) delete calls. -/
def isDeleteModelEv : Event → Bool
  | .deleteModel _ => true
  | _ => false

/-- Version-listing calls. -/
def isListEv : Event → Bool
  | .listModelVersions _ _ => true
  | _ => false

/-- Scans a model-handler trace: the flag records whether the most recent
version listing reported zero active-stage versions, and the scan demands
that every artifact-level delete happen while that flag is set.
`delOnlyAfterClean false t = true` says a delete is only ever issued directly
after a listing with no active-stage versions. -/
def delOnlyAfterClean : Bool → List Event → Bool
  | _, [] => true
  | ok, e :: rest =>
    match e with
    | .deleteModel _ => ok && delOnlyAfterClean ok rest
    | .listModelVersions _ vs => delOnlyAfterClean (countActive vs == 0) rest
    | _ => delOnlyAfterClean ok rest

/-- A concrete platform state: a clean workspace with ML support enabled and
no catalog-creating lesson. -/
def envBase : Env where
  lessonName := none
  enableMlSupport := true
  createCatalog := false
  catalogName := "c".data
  schemaName := "s".data
  catalogPref := "dp".data
  schemaPref := "sp".data
  uniqueNameLesson := "u1".data
  uniqueNameWorkspace := "u".data
  activeStreams := []
  featureTables := []
  endpointsListing := Except.ok []
  modelNames := []
  modelVersions := fun _ => []
  modelPolls := fun _ => []
  experiments := []
  experimentStatus := fun _ => none
  showDatabasesResult := []
  catalogs := []
  catalogsAfter := []
  sparkDefaultCatalog := "sc".data
  ucDefaultCatalog := "uc".data
  defaultSchemaName := "default".data
  databasesIn := fun _ => []
  describeLocation := fun _ => none
  dbDropOutcome := fun _ => Except.ok ()
  catalogDropOutcome := fun _ => Except.ok ()
  workingDirRoot := "wr".data
  workingDirRootExists := false
  datasetsPath := "ds".data
  datasetsExists := false
  archivesPath := "ar".data
  archivesExists := false
  workingDir := "wd".data
  workingDirExists := false
  pools := []
  poolExists := fun _ => false
  policies := []
  policyExists := fun _ => false

/-- Platform state for the C6 bug: the datasets path exists but the archives
path does not. -/
def envC6a : Env := { envBase with datasetsExists := true, archivesExists := false }

/-- Platform state for the C6 bug, other direction: the archives path exists
but the datasets path does not. -/
def envC6b : Env := { envBase with datasetsExists := false, archivesExists := true }

/-- Platform state for the C5 witness, catalog side: a catalog-creating
lesson whose catalog drop raises `AnalysisException`. -/
def envC5a : Env :=
  { envBase with
    createCatalog := true
    catalogDropOutcome := fun _ => Except.error SqlErr.analysisException }

/-- Platform state for the C5 witness, schema side: the schema is listed and
its drop raises `AnalysisException`. -/
def envC5b : Env :=
  { envBase with
    showDatabasesResult := ["s".data]
    dbDropOutcome := fun _ => Except.error SqlErr.analysisException }

/-- Platform state for the C4 counterexample: a clean workspace whose lesson
is configured to create a catalog. -/
def envC4 : Env := { envBase with createCatalog := true }

theorem scanOK_append (bad trig : Event → Bool) (a b : List Event) (s : Bool) :
    scanOK bad trig s (a ++ b) =
      (scanOK bad trig s a && scanOK bad trig (s || a.any trig) b) := by
  induction a generalizing s with
  | nil => simp [scanOK]
  | cons e a ih =>
    simp only [List.cons_append, scanOK, List.any_cons]
    cases h : bad e && s with
    | true => simp
    | false => simp [ih, Bool.or_assoc]

theorem scanOK_of_no_bad (bad trig : Event → Bool) (l : List Event) (s : Bool)
    (h : ∀ e ∈ l, bad e = false) : scanOK bad trig s l = true := by
  induction l generalizing s with
  | nil => simp [scanOK]
  | cons e l ih =>
    have he : bad e = false := h e (List.mem_cons_self _ _)
    simp only [scanOK, he, Bool.false_and, cond_false]
    exact ih _ (fun x hx => h x (List.mem_cons_of_mem _ hx))

theorem scanOK_of_no_trig (bad trig : Event → Bool) (l : List Event)
    (h : ∀ e ∈ l, trig e = false) : scanOK bad trig false l = true := by
  induction l with
  | nil => simp [scanOK]
  | cons e l ih =>
    have he : trig e = false := h e (List.mem_cons_self _ _)
    simp only [scanOK, Bool.and_false, he, Bool.or_false, Bool.false_or, cond_false]
    exact ih (fun x hx => h x (List.mem_cons_of_mem _ hx))

theorem any_eq_false_of_all (p : Event → Bool) (l : List Event)
    (h : ∀ e ∈ l, p e = false) : l.any p = false := by
  simp only [List.any_eq_false]
  intro e he
  simp [h e he]

theorem scanOK_runSteps_of_no_bad (bad trig : Event → Bool) (bs : List HRes)
    (hb : ∀ r ∈ bs, ∀ e ∈ r.events, bad e = false) (s : Bool) :
    scanOK bad trig s (runSteps bs).1 = true := by
  induction bs generalizing s with
  | nil => simp [runSteps, scanOK]
  | cons r rest ih =>
    have hr : ∀ e ∈ r.events, bad e = false := hb r (List.mem_cons_self _ _)
    have hrest : ∀ q ∈ rest, ∀ e ∈ q.events, bad e = false :=
      fun q hq => hb q (List.mem_cons_of_mem _ hq)
    cases h : r.err with
    | some e => simpa [runSteps, h] using scanOK_of_no_bad bad trig r.events s hr
    | none =>
      simp only [runSteps, h, scanOK_append, Bool.and_eq_true]
      exact ⟨scanOK_of_no_bad bad trig r.events s hr, ih hrest _⟩

theorem scanOK_runSteps (bad trig : Event → Bool) (as bs : List HRes)
    (ha : ∀ r ∈ as, ∀ e ∈ r.events, trig e = false)
    (hb : ∀ r ∈ bs, ∀ e ∈ r.events, bad e = false) :
    scanOK bad trig false (runSteps (as ++ bs)).1 = true := by
  induction as with
  | nil => simpa using scanOK_runSteps_of_no_bad bad trig bs hb false
  | cons r rest ih =>
    have hr : ∀ e ∈ r.events, trig e = false := ha r (List.mem_cons_self _ _)
    have hrest : ∀ q ∈ rest, ∀ e ∈ q.events, trig e = false :=
      fun q hq => ha q (List.mem_cons_of_mem _ hq)
    cases h : r.err with
    | some e => simpa [runSteps, h] using scanOK_of_no_trig bad trig r.events hr
    | none =>
      simp only [List.cons_append, runSteps, h, scanOK_append, Bool.and_eq_true]
      refine ⟨scanOK_of_no_trig bad trig r.events hr, ?_⟩
      simpa [any_eq_false_of_all trig r.events hr] using ih hrest

theorem isStopEv_false_of_class (e : Event) (h : evClass e ≠ 1) : isStopEv e = false := by
  cases e <;> simp_all [evClass, isStopEv]

theorem isNsDropEv_false_of_class (e : Event) (h : evClass e ≠ 3) : isNsDropEv e = false := by
  cases e <;> simp_all [evClass, isNsDropEv]

theorem isPoolDropEv_false_of_class (e : Event) (h : evClass e ≠ 5) : isPoolDropEv e = false := by
  cases e <;> simp_all [evClass, isPoolDropEv]

theorem poolSegment_not_bad (e : Event) (h : evClass e = 5) :
    (isCleanupEv e && !isPoolDropEv e) = false := by
  cases e <;> simp_all [evClass, isCleanupEv, isPoolDropEv]

theorem class_stop_all_streams (env : Env) :
    ∀ e ∈ (stop_all_streams env).events, evClass e = 1 := by
  intro e he
  simp only [stop_all_streams] at he
  split at he
  · simp at he
  · simp only [List.mem_flatMap, List.mem_cons, List.not_mem_nil, or_false] at he
    obtain ⟨s, _, hc⟩ := he
    rcases hc with rfl | rfl <;> rfl

theorem class_drop_feature_store_tables (env : Env) (lo : Bool) :
    ∀ e ∈ (drop_feature_store_tables env lo).events, evClass e = 2 := by
  intro e he
  simp only [drop_feature_store_tables] at he
  split at he
  all_goals
    split at he
    · simp at he
      subst he; rfl
    · simp at he
      rcases he with rfl | ⟨a, _, rfl⟩ <;> rfl

theorem class_cleanup_mlflow_endpoints (env : Env) (cache : Option Str) (lo : Bool) :
    ∀ e ∈ (cleanup_mlflow_endpoints env cache lo).1.events, evClass e = 2 := by
  intro e he
  simp only [cleanup_mlflow_endpoints] at he
  split at he
  · split at he
    · simp only [List.mem_cons, List.not_mem_nil, or_false] at he
      rcases he with rfl | rfl <;> rfl
    · simp only [List.mem_cons, List.not_mem_nil, or_false] at he
      subst he; rfl
  · split at he
    · simp only [List.mem_cons, List.not_mem_nil, or_false] at he
      subst he; rfl
    · simp only [List.mem_cons, List.mem_map] at he
      rcases he with rfl | ⟨a, _, rfl⟩ <;> rfl

theorem class_sleepEvs (vs : List Version) : ∀ e ∈ sleepEvs vs, evClass e = 2 := by
  intro e he
  simp only [sleepEvs, List.mem_flatMap] at he
  obtain ⟨v, _, hc⟩ := he
  by_cases h : isActiveStage v.current_stage
  · simp [h] at hc
    subst hc; rfl
  · simp [h] at hc

theorem class_transitionEvs (n : Str) (vs : List Version) :
    ∀ e ∈ transitionEvs n vs, evClass e = 2 := by
  intro e he
  simp only [transitionEvs, List.mem_flatMap] at he
  obtain ⟨v, _, hc⟩ := he
  by_cases h : isActiveStage v.current_stage
  · simp [h] at hc
    subst hc; rfl
  · simp [h] at hc

theorem class_pollLoop (n : Str) (polls : List (List Version)) :
    ∀ e ∈ (pollLoop n polls).1, evClass e = 2 := by
  induction polls with
  | nil => intro e he; simp [pollLoop] at he
  | cons vs rest ih =>
    intro e he
    simp only [pollLoop] at he
    split at he
    · simp only [List.mem_cons, List.not_mem_nil, or_false] at he
      subst he; rfl
    · simp only [List.mem_cons, List.mem_append] at he
      rcases he with rfl | h1 | h1
      · rfl
      · exact class_sleepEvs vs e h1
      · exact ih e h1

theorem class_processModel (n : Str) (i : List Version) (polls : List (List Version)) :
    ∀ e ∈ (processModel n i polls).1, evClass e = 2 := by
  intro e he
  simp only [processModel, List.mem_cons, List.mem_append] at he
  rcases he with rfl | h1 | h1 | h1
  · rfl
  · exact class_transitionEvs n i e h1
  · exact class_pollLoop n polls e h1
  · cases hp : (pollLoop n polls).2 <;> simp [hp] at h1
    subst h1; rfl

theorem class_processModels (env : Env) (l : List Str) :
    ∀ e ∈ (processModels env l).1, evClass e = 2 := by
  induction l with
  | nil => intro e he; simp [processModels] at he
  | cons n rest ih =>
    intro e he
    simp only [processModels] at he
    split at he
    · simp only [List.mem_append] at he
      rcases he with h1 | h1
      · exact class_processModel n _ _ e h1
      · exact ih e h1
    · exact class_processModel n _ _ e he

theorem class_cleanup_mlflow_models (env : Env) (cache : Option Str) (lo : Bool) :
    ∀ e ∈ (cleanup_mlflow_models env cache lo).1.events, evClass e = 2 := by
  intro e he
  simp only [cleanup_mlflow_models] at he
  split at he
  · simp only [List.mem_cons, List.not_mem_nil, or_false] at he
    subst he; rfl
  · simp only [List.mem_cons] at he
    rcases he with rfl | h1
    · rfl
    · exact class_processModels env _ e h1

theorem class_cleanup_experiments (env : Env) (cache : Option Str) (lo : Bool) :
    ∀ e ∈ (cleanup_experiments env cache lo).1.events, evClass e = 2 := by
  intro e he
  simp only [cleanup_experiments] at he
  split at he
  · simp only [List.mem_cons, List.not_mem_nil, or_false] at he
    subst he; rfl
  · simp only [List.mem_cons, List.mem_flatMap] at he
    rcases he with rfl | ⟨n, _, hc⟩
    · rfl
    · rcases hc with rfl | h1
      · rfl
      · split at h1
        · split at h1
          · simp at h1
            subst h1; rfl
          · simp at h1
        · simp at h1

theorem class_drop_database (env : Env) (s : Str) :
    ∀ e ∈ (drop_database env s).1, evClass e = 3 ∨ evClass e = 4 := by
  intro e he
  simp only [drop_database] at he
  split at he
  all_goals
    first
    | (simp only [List.mem_cons, List.not_mem_nil, or_false] at he
       rcases he with rfl | rfl
       · exact Or.inl rfl
       · exact Or.inl rfl)
    | (simp only [List.mem_cons] at he
       rcases he with rfl | rfl | h1
       · exact Or.inl rfl
       · exact Or.inl rfl
       · split at h1
         · simp only [List.mem_cons, List.not_mem_nil, or_false] at h1
           subst h1; exact Or.inr rfl
         · simp at h1)

theorem class_dropCatalogLoop (env : Env) (cs : List Str) :
    ∀ e ∈ (dropCatalogLoop env cs).1, evClass e = 3 := by
  induction cs with
  | nil => intro e he; simp [dropCatalogLoop] at he
  | cons c rest ih =>
    intro e he
    simp only [dropCatalogLoop] at he
    split at he
    · split at he
      all_goals
        first
        | (simp only [List.mem_cons] at he
           rcases he with rfl | h1
           · rfl
           · exact ih e h1)
        | (simp only [List.mem_cons, List.not_mem_nil, or_false] at he
           subst he; rfl)
    · exact ih e he

theorem class_dropSchemasIn (env : Env) (c : Str) (ss : List Str) :
    ∀ e ∈ (dropSchemasIn env c ss).1, evClass e = 3 ∨ evClass e = 4 := by
  induction ss with
  | nil => intro e he; simp [dropSchemasIn] at he
  | cons s rest ih =>
    intro e he
    simp only [dropSchemasIn] at he
    split at he
    · split at he
      · simp only [List.mem_append] at he
        rcases he with h1 | h1
        · exact class_drop_database env _ e h1
        · exact ih e h1
      · exact class_drop_database env _ e he
    · exact ih e he

theorem class_resetDatabasesPhase2 (env : Env) (cs : List Str) :
    ∀ e ∈ (resetDatabasesPhase2 env cs).1, evClass e = 3 ∨ evClass e = 4 := by
  induction cs with
  | nil => intro e he; simp [resetDatabasesPhase2] at he
  | cons c rest ih =>
    intro e he
    simp only [resetDatabasesPhase2] at he
    split at he
    · split at he
      · simp only [List.mem_cons, List.mem_append] at he
        rcases he with rfl | h1 | h1
        · exact Or.inl rfl
        · exact class_dropSchemasIn env c _ e h1
        · exact ih e h1
      · simp only [List.mem_cons] at he
        rcases he with rfl | h1
        · exact Or.inl rfl
        · exact class_dropSchemasIn env c _ e h1
    · exact ih e he

theorem class_reset_databases (env : Env) :
    ∀ e ∈ (reset_databases env).1, evClass e = 3 ∨ evClass e = 4 := by
  intro e he
  simp only [reset_databases] at he
  split at he
  · simp only [List.mem_cons] at he
    rcases he with rfl | h1
    · exact Or.inl rfl
    · exact Or.inl (class_dropCatalogLoop env _ e h1)
  · simp only [List.mem_cons, List.mem_append] at he
    rcases he with rfl | h1 | rfl | h1
    · exact Or.inl rfl
    · exact Or.inl (class_dropCatalogLoop env _ e h1)
    · exact Or.inl rfl
    · exact class_resetDatabasesPhase2 env _ e h1

theorem class_reset_datasets (env : Env) :
    ∀ e ∈ reset_datasets env, evClass e = 4 := by
  intro e he
  simp only [reset_datasets] at he
  split at he
  · simp only [List.mem_cons, List.not_mem_nil, or_false] at he
    subst he; rfl
  · simp at he

theorem class_reset_archives (env : Env) :
    ∀ e ∈ reset_archives env, evClass e = 4 := by
  intro e he
  simp only [reset_archives] at he
  split at he
  · simp only [List.mem_cons, List.not_mem_nil, or_false] at he
    subst he; rfl
  · simp at he

theorem class_reset_working_dir (env : Env) :
    ∀ e ∈ reset_working_dir env, evClass e = 4 := by
  intro e he
  simp only [reset_working_dir] at he
  split at he
  · simp only [List.mem_cons, List.not_mem_nil, or_false] at he
    subst he; rfl
  · simp at he

theorem class_drop_instance_pool (env : Env) :
    ∀ e ∈ drop_instance_pool env, evClass e = 5 := by
  intro e he
  simp only [drop_instance_pool, List.mem_flatMap] at he
  obtain ⟨p, _, hc⟩ := he
  rcases List.mem_cons.mp hc with rfl | h1
  · rfl
  · split at h1
    · simp only [List.mem_cons, List.not_mem_nil, or_false] at h1
      subst h1; rfl
    · simp at h1

theorem class_drop_cluster_policies (env : Env) :
    ∀ e ∈ drop_cluster_policies env, evClass e = 5 := by
  intro e he
  simp only [drop_cluster_policies, List.mem_flatMap] at he
  obtain ⟨p, _, hc⟩ := he
  rcases List.mem_cons.mp hc with rfl | h1
  · rfl
  · split at h1
    · simp only [List.mem_cons, List.not_mem_nil, or_false] at h1
      subst h1; rfl
    · simp at h1

theorem scanOK_clearCache (bad trig : Event → Bool) (hb : bad Event.clearCache = false)
    (ht : trig Event.clearCache = false) (t : List Event) :
    scanOK bad trig false (Event.clearCache :: t) = scanOK bad trig false t := by
  simp [scanOK, hb, ht]

theorem allE_nil (P : Event → Prop) : ∀ q ∈ ([] : List HRes), ∀ e ∈ q.events, P e := by
  simp

theorem allE_cons (P : Event → Prop) (r : HRes) (rs : List HRes)
    (h1 : ∀ e ∈ r.events, P e) (h2 : ∀ q ∈ rs, ∀ e ∈ q.events, P e) :
    ∀ q ∈ r :: rs, ∀ e ∈ q.events, P e := by
  intro q hq
  rcases List.mem_cons.mp hq with rfl | hq2
  · exact h1
  · exact h2 q hq2

theorem isNsDropEv_false_12 (e : Event) (h : evClass e = 1 ∨ evClass e = 2) :
    isNsDropEv e = false :=
  isNsDropEv_false_of_class e (by rcases h with h | h <;> omega)

theorem isStopEv_false_345 (e : Event) (h : evClass e = 3 ∨ evClass e = 4 ∨ evClass e = 5) :
    isStopEv e = false :=
  isStopEv_false_of_class e (by rcases h with h | h | h <;> omega)

theorem isPoolDropEv_false_1234 (e : Event)
    (h : evClass e = 1 ∨ evClass e = 2 ∨ evClass e = 3 ∨ evClass e = 4) :
    isPoolDropEv e = false :=
  isPoolDropEv_false_of_class e (by rcases h with h | h | h | h <;> omega)

/-- C3: in a workspace reset, every pipeline-stop call is recorded before any
namespace-drop call, and every compute-pool / cluster-policy drop is recorded
after every other resource-cleanup call, for every platform state and cache
state. -/
theorem mlflow_c3_workspace_reset_ordering (env : Env) (cache : Option Str) :
    scanOK isStopEv isNsDropEv false (reset_learning_environment env cache).events = true ∧
    scanOK (fun e => isCleanupEv e && !isPoolDropEv e) isPoolDropEv false
      (reset_learning_environment env cache).events = true := by
  cases henv : env.enableMlSupport with
  | false =>
    refine ⟨?_, ?_⟩
    · simp only [reset_learning_environment, henv, Bool.false_eq_true, if_false,
        List.nil_append]
      rw [scanOK_clearCache _ _ rfl rfl]
      exact scanOK_runSteps _ _
        [stop_all_streams env]
        [⟨(reset_databases env).1, false, (reset_databases env).2⟩,
         ⟨reset_datasets env, false, none⟩, ⟨reset_archives env, false, none⟩,
         ⟨reset_working_dir env, false, none⟩,
         ⟨drop_instance_pool env, false, none⟩, ⟨drop_cluster_policies env, false, none⟩]
        (allE_cons _ _ _
          (fun e he => isNsDropEv_false_12 e (Or.inl (class_stop_all_streams env e he)))
          (allE_nil _))
        (allE_cons _ _ _
          (fun e he => isStopEv_false_345 e
            (by rcases class_reset_databases env e he with h | h
                · exact Or.inl h
                · exact Or.inr (Or.inl h)))
          (allE_cons _ _ _
            (fun e he => isStopEv_false_345 e (Or.inr (Or.inl (class_reset_datasets env e he))))
            (allE_cons _ _ _
              (fun e he => isStopEv_false_345 e (Or.inr (Or.inl (class_reset_archives env e he))))
              (allE_cons _ _ _
                (fun e he => isStopEv_false_345 e (Or.inr (Or.inl (class_reset_working_dir env e he))))
                (allE_cons _ _ _
                  (fun e he => isStopEv_false_345 e (Or.inr (Or.inr (class_drop_instance_pool env e he))))
                  (allE_cons _ _ _
                    (fun e he => isStopEv_false_345 e (Or.inr (Or.inr (class_drop_cluster_policies env e he))))
                    (allE_nil _)))))))
    · simp only [reset_learning_environment, henv, Bool.false_eq_true, if_false,
        List.nil_append]
      rw [scanOK_clearCache _ _ rfl rfl]
      exact scanOK_runSteps _ _
        [stop_all_streams env,
         ⟨(reset_databases env).1, false, (reset_databases env).2⟩,
         ⟨reset_datasets env, false, none⟩, ⟨reset_archives env, false, none⟩,
         ⟨reset_working_dir env, false, none⟩]
        [⟨drop_instance_pool env, false, none⟩, ⟨drop_cluster_policies env, false, none⟩]
        (allE_cons _ _ _
          (fun e he => isPoolDropEv_false_1234 e (Or.inl (class_stop_all_streams env e he)))
          (allE_cons _ _ _
            (fun e he => isPoolDropEv_false_1234 e
              (by rcases class_reset_databases env e he with h | h
                  · exact Or.inr (Or.inr (Or.inl h))
                  · exact Or.inr (Or.inr (Or.inr h))))
            (allE_cons _ _ _
              (fun e he => isPoolDropEv_false_1234 e (Or.inr (Or.inr (Or.inr (class_reset_datasets env e he)))))
              (allE_cons _ _ _
                (fun e he => isPoolDropEv_false_1234 e (Or.inr (Or.inr (Or.inr (class_reset_archives env e he)))))
                (allE_cons _ _ _
                  (fun e he => isPoolDropEv_false_1234 e (Or.inr (Or.inr (Or.inr (class_reset_working_dir env e he)))))
                  (allE_nil _))))))
        (allE_cons _ _ _
          (fun e he => poolSegment_not_bad e (class_drop_instance_pool env e he))
          (allE_cons _ _ _
            (fun e he => poolSegment_not_bad e (class_drop_cluster_policies env e he))
            (allE_nil _)))
  | true =>
    refine ⟨?_, ?_⟩
    · simp only [reset_learning_environment, henv, if_true]
      rw [scanOK_clearCache _ _ rfl rfl]
      exact scanOK_runSteps _ _
        [stop_all_streams env,
         drop_feature_store_tables env false,
         (cleanup_mlflow_endpoints env cache false).1,
         (cleanup_mlflow_models env (cleanup_mlflow_endpoints env cache false).2 false).1,
         (cleanup_experiments env
           (cleanup_mlflow_models env (cleanup_mlflow_endpoints env cache false).2 false).2 false).1]
        [⟨(reset_databases env).1, false, (reset_databases env).2⟩,
         ⟨reset_datasets env, false, none⟩, ⟨reset_archives env, false, none⟩,
         ⟨reset_working_dir env, false, none⟩,
         ⟨drop_instance_pool env, false, none⟩, ⟨drop_cluster_policies env, false, none⟩]
        (allE_cons _ _ _
          (fun e he => isNsDropEv_false_12 e (Or.inl (class_stop_all_streams env e he)))
          (allE_cons _ _ _
            (fun e he => isNsDropEv_false_12 e (Or.inr (class_drop_feature_store_tables env false e he)))
            (allE_cons _ _ _
              (fun e he => isNsDropEv_false_12 e (Or.inr (class_cleanup_mlflow_endpoints env cache false e he)))
              (allE_cons _ _ _
                (fun e he => isNsDropEv_false_12 e (Or.inr (class_cleanup_mlflow_models env _ false e he)))
                (allE_cons _ _ _
                  (fun e he => isNsDropEv_false_12 e (Or.inr (class_cleanup_experiments env _ false e he)))
                  (allE_nil _))))))
        (allE_cons _ _ _
          (fun e he => isStopEv_false_345 e
            (by rcases class_reset_databases env e he with h | h
                · exact Or.inl h
                · exact Or.inr (Or.inl h)))
          (allE_cons _ _ _
            (fun e he => isStopEv_false_345 e (Or.inr (Or.inl (class_reset_datasets env e he))))
            (allE_cons _ _ _
              (fun e he => isStopEv_false_345 e (Or.inr (Or.inl (class_reset_archives env e he))))
              (allE_cons _ _ _
                (fun e he => isStopEv_false_345 e (Or.inr (Or.inl (class_reset_working_dir env e he))))
                (allE_cons _ _ _
                  (fun e he => isStopEv_false_345 e (Or.inr (Or.inr (class_drop_instance_pool env e he))))
                  (allE_cons _ _ _
                    (fun e he => isStopEv_false_345 e (Or.inr (Or.inr (class_drop_cluster_policies env e he))))
                    (allE_nil _)))))))
    · simp only [reset_learning_environment, henv, if_true]
      rw [scanOK_clearCache _ _ rfl rfl]
      exact scanOK_runSteps _ _
        [stop_all_streams env,
         drop_feature_store_tables env false,
         (cleanup_mlflow_endpoints env cache false).1,
         (cleanup_mlflow_models env (cleanup_mlflow_endpoints env cache false).2 false).1,
         (cleanup_experiments env
           (cleanup_mlflow_models env (cleanup_mlflow_endpoints env cache false).2 false).2 false).1,
         ⟨(reset_databases env).1, false, (reset_databases env).2⟩,
         ⟨reset_datasets env, false, none⟩, ⟨reset_archives env, false, none⟩,
         ⟨reset_working_dir env, false, none⟩]
        [⟨drop_instance_pool env, false, none⟩, ⟨drop_cluster_policies env, false, none⟩]
        (allE_cons _ _ _
          (fun e he => isPoolDropEv_false_1234 e (Or.inl (class_stop_all_streams env e he)))
          (allE_cons _ _ _
            (fun e he => isPoolDropEv_false_1234 e (Or.inr (Or.inl (class_drop_feature_store_tables env false e he))))
            (allE_cons _ _ _
              (fun e he => isPoolDropEv_false_1234 e (Or.inr (Or.inl (class_cleanup_mlflow_endpoints env cache false e he))))
              (allE_cons _ _ _
                (fun e he => isPoolDropEv_false_1234 e (Or.inr (Or.inl (class_cleanup_mlflow_models env _ false e he))))
                (allE_cons _ _ _
                  (fun e he => isPoolDropEv_false_1234 e (Or.inr (Or.inl (class_cleanup_experiments env _ false e he))))
                  (allE_cons _ _ _
                    (fun e he => isPoolDropEv_false_1234 e
                      (by rcases class_reset_databases env e he with h | h
                          · exact Or.inr (Or.inr (Or.inl h))
                          · exact Or.inr (Or.inr (Or.inr h))))
                    (allE_cons _ _ _
                      (fun e he => isPoolDropEv_false_1234 e (Or.inr (Or.inr (Or.inr (class_reset_datasets env e he)))))
                      (allE_cons _ _ _
                        (fun e he => isPoolDropEv_false_1234 e (Or.inr (Or.inr (Or.inr (class_reset_archives env e he)))))
                        (allE_cons _ _ _
                          (fun e he => isPoolDropEv_false_1234 e (Or.inr (Or.inr (Or.inr (class_reset_working_dir env e he)))))
                          (allE_nil _))))))))))
        (allE_cons _ _ _
          (fun e he => poolSegment_not_bad e (class_drop_instance_pool env e he))
          (allE_cons _ _ _
            (fun e he => poolSegment_not_bad e (class_drop_cluster_policies env e he))
            (allE_nil _)))

theorem partMatches_eq_isPrefixOf (lo : Bool) (u p : Str) :
    partMatches lo u p = List.isPrefixOf u p := by
  unfold partMatches
  cases hb : (u == p) with
  | false => simp
  | true =>
    have h : u = p := eq_of_beq hb
    subst h
    simp [List.isPrefixOf_iff_prefix]

/-- C1 counterexample: with uniqueName "u1", the candidate "u10" is accepted
by the matcher in SessionOnly scope (`lesson_only = true`) although none of
its `_`-separated segments is exactly equal to "u1": the `elif
part.startswith(unique_name)` branch fires even in SessionOnly scope. -/
theorem matcher_c1_counterexample :
    nameMatches true "u1".data "u10".data = true ∧
    (splitOnChar '_' "u10".data).contains "u1".data = false := by
  exact ⟨by decide, by decide⟩

/-- C1 (amended): in both scopes the matcher accepts a candidate iff at least
one of its `_`-separated segments starts with uniqueName — the exact-equality
branch for SessionOnly scope is subsumed by the prefix branch, so scope does
not affect acceptance; in particular "u1" and "u10" both match under both
scopes for uniqueName "u1". -/
theorem matcher_c1_amended (lessonOnly : Bool) (u name : Str) :
    nameMatches lessonOnly u name
      = (splitOnChar '_' name).any (fun p => List.isPrefixOf u p) ∧
    nameMatches true "u1".data "u1".data = true ∧
    nameMatches false "u1".data "u1".data = true ∧
    nameMatches true "u1".data "u10".data = true ∧
    nameMatches false "u1".data "u10".data = true := by
  refine ⟨?_, by decide, by decide, by decide, by decide⟩
  have h : (partMatches lessonOnly u) = (fun p => List.isPrefixOf u p) :=
    funext (partMatches_eq_isPrefixOf lessonOnly u)
  simp only [nameMatches, h]

theorem delOnlyAfterClean_cons_neutral (ok : Bool) (e : Event) (rest : List Event)
    (h1 : isDeleteModelEv e = false) (h2 : isListEv e = false) :
    delOnlyAfterClean ok (e :: rest) = delOnlyAfterClean ok rest := by
  cases e <;> try rfl
  · exact absurd h2 (by simp [isListEv])
  · exact absurd h1 (by simp [isDeleteModelEv])

theorem delOnlyAfterClean_neutral (ok : Bool) (l t : List Event)
    (h : ∀ e ∈ l, isDeleteModelEv e = false ∧ isListEv e = false) :
    delOnlyAfterClean ok (l ++ t) = delOnlyAfterClean ok t := by
  induction l with
  | nil => rfl
  | cons e l ih =>
    have he := h e (List.mem_cons_self _ _)
    have hrest : ∀ x ∈ l, isDeleteModelEv x = false ∧ isListEv x = false :=
      fun x hx => h x (List.mem_cons_of_mem _ hx)
    rw [List.cons_append, delOnlyAfterClean_cons_neutral ok e _ he.1 he.2]
    exact ih hrest

theorem sleepEvs_neutral (vs : List Version) :
    ∀ e ∈ sleepEvs vs, isDeleteModelEv e = false ∧ isListEv e = false := by
  intro e he
  simp only [sleepEvs, List.mem_flatMap] at he
  obtain ⟨v, _, hc⟩ := he
  by_cases h : isActiveStage v.current_stage
  · simp [h] at hc
    subst hc
    exact ⟨rfl, rfl⟩
  · simp [h] at hc

theorem transitionEvs_neutral (n : Str) (vs : List Version) :
    ∀ e ∈ transitionEvs n vs, isDeleteModelEv e = false ∧ isListEv e = false := by
  intro e he
  simp only [transitionEvs, List.mem_flatMap] at he
  obtain ⟨v, _, hc⟩ := he
  by_cases h : isActiveStage v.current_stage
  · simp [h] at hc
    subst hc
    exact ⟨rfl, rfl⟩
  · simp [h] at hc

theorem countP_sleepEvs_trans (vs : List Version) :
    (sleepEvs vs).countP isTransitionEv = 0 := by
  rw [List.countP_eq_zero]
  intro e he
  simp only [sleepEvs, List.mem_flatMap] at he
  obtain ⟨v, _, hc⟩ := he
  by_cases h : isActiveStage v.current_stage
  · simp [h] at hc
    subst hc
    decide
  · simp [h] at hc

theorem countP_sleepEvs_del (vs : List Version) :
    (sleepEvs vs).countP isDeleteModelEv = 0 := by
  rw [List.countP_eq_zero]
  intro e he
  simp [(sleepEvs_neutral vs e he).1]

theorem countP_transitionEvs_del (n : Str) (vs : List Version) :
    (transitionEvs n vs).countP isDeleteModelEv = 0 := by
  rw [List.countP_eq_zero]
  intro e he
  simp [(transitionEvs_neutral n vs e he).1]

theorem countP_transitionEvs (n : Str) (vs : List Version) :
    (transitionEvs n vs).countP isTransitionEv = countActive vs := by
  induction vs with
  | nil => rfl
  | cons v rest ih =>
    simp only [transitionEvs, List.flatMap_cons, List.countP_append, countActive,
      List.filter_cons] at ih ⊢
    by_cases h : isActiveStage v.current_stage
    · simp only [h, if_pos rfl, List.countP_cons, List.length_cons]
      simp [isTransitionEv, ih]
      omega
    · simp only [Bool.not_eq_true] at h
      simp [h, ih]

theorem pollLoop_spec (n : Str) (polls : List (List Version))
    (h : ∃ l ∈ polls, countActive l = 0) :
    (pollLoop n polls).2 = true ∧
    (pollLoop n polls).1.countP isTransitionEv = 0 ∧
    (pollLoop n polls).1.countP isDeleteModelEv = 0 ∧
    ∀ ok : Bool, delOnlyAfterClean ok ((pollLoop n polls).1 ++ [Event.deleteModel n]) = true := by
  induction polls with
  | nil => simp at h
  | cons vs rest ih =>
    by_cases hc : countActive vs = 0
    · refine ⟨?_, ?_, ?_, ?_⟩
      · simp [pollLoop, hc]
      · simp [pollLoop, hc, List.countP_cons, isTransitionEv]
      · simp [pollLoop, hc, List.countP_cons, isDeleteModelEv]
      · intro ok
        simp [pollLoop, hc, delOnlyAfterClean]
    · have h2 : ∃ l ∈ rest, countActive l = 0 := by
        rcases h with ⟨l, hl, h0⟩
        rcases List.mem_cons.mp hl with rfl | hl2
        · exact absurd h0 hc
        · exact ⟨l, hl2, h0⟩
      obtain ⟨ht, hct, hcd, hscan⟩ := ih h2
      refine ⟨?_, ?_, ?_, ?_⟩
      · simp [pollLoop, hc, ht]
      · simp [pollLoop, hc, List.countP_cons, List.countP_append,
          countP_sleepEvs_trans, hct, isTransitionEv]
      · simp [pollLoop, hc, List.countP_cons, List.countP_append,
          countP_sleepEvs_del, hcd, isDeleteModelEv]
      · intro ok
        have e1 : (pollLoop n (vs :: rest)).1 ++ [Event.deleteModel n]
            = Event.listModelVersions n vs ::
              (sleepEvs vs ++ ((pollLoop n rest).1 ++ [Event.deleteModel n])) := by
          simp [pollLoop, hc, List.append_assoc]
        rw [e1]
        show delOnlyAfterClean (countActive vs == 0)
          (sleepEvs vs ++ ((pollLoop n rest).1 ++ [Event.deleteModel n])) = true
        rw [delOnlyAfterClean_neutral _ _ _ (sleepEvs_neutral vs)]
        exact hscan _

/-- C2: for a model with exactly two versions initially in the active stages
"production" and "staging", and any poll oracle that eventually reports a
listing with zero active-stage versions, the staged-deletion body issues
exactly 2 stage-transition calls and exactly 1 artifact-level delete call,
terminates, and every delete is issued directly after a version listing that
reported zero active-stage versions — never while a listed version is still
active. -/
theorem mlflow_c2_staged_deletion (name : Str) (v1 v2 : Version)
    (polls : List (List Version))
    (h1 : lowerStr v1.current_stage = "production".data)
    (h2 : lowerStr v2.current_stage = "staging".data)
    (hterm : ∃ l ∈ polls, countActive l = 0) :
    (processModel name [v1, v2] polls).2 = true ∧
    (processModel name [v1, v2] polls).1.countP isTransitionEv = 2 ∧
    (processModel name [v1, v2] polls).1.countP isDeleteModelEv = 1 ∧
    delOnlyAfterClean false (processModel name [v1, v2] polls).1 = true := by
  have ha1 : isActiveStage v1.current_stage = true := by simp [isActiveStage, h1]
  have ha2 : isActiveStage v2.current_stage = true := by simp [isActiveStage, h2]
  have hcnt : countActive [v1, v2] = 2 := by simp [countActive, ha1, ha2]
  obtain ⟨ht, hct, hcd, hscan⟩ := pollLoop_spec name polls hterm
  have e1 : (processModel name [v1, v2] polls).1
      = Event.listModelVersions name [v1, v2] ::
        (transitionEvs name [v1, v2] ++
          ((pollLoop name polls).1 ++ [Event.deleteModel name])) := by
    simp [processModel, ht]
  refine ⟨by simp [processModel, ht], ?_, ?_, ?_⟩
  · rw [e1]
    simp [List.countP_cons, List.countP_append, countP_transitionEvs, hcnt, hct,
      isTransitionEv]
  · rw [e1]
    simp [List.countP_cons, List.countP_append, countP_transitionEvs_del, hcd,
      isDeleteModelEv]
  · rw [e1]
    show delOnlyAfterClean (countActive [v1, v2] == 0)
      (transitionEvs name [v1, v2] ++
        ((pollLoop name polls).1 ++ [Event.deleteModel name])) = true
    rw [delOnlyAfterClean_neutral _ _ _ (transitionEvs_neutral name [v1, v2])]
    have : (countActive [v1, v2] == 0) = false := by simp [hcnt]
    rw [this]
    exact hscan false

/-- Witness for C2 at a concrete input: versions 1 ("production") and 2
("staging"), with a single poll listing reporting both versions archived. -/
theorem mlflow_c2_staged_deletion_witness :
    (lowerStr ("Production".data) = "production".data ∧
     lowerStr ("Staging".data) = "staging".data ∧
     (∃ l ∈ [[(⟨1, "Archived".data⟩ : Version), ⟨2, "Archived".data⟩]],
        countActive l = 0)) ∧
    ((processModel "m".data [⟨1, "Production".data⟩, ⟨2, "Staging".data⟩]
        [[⟨1, "Archived".data⟩, ⟨2, "Archived".data⟩]]).2 = true ∧
     (processModel "m".data [⟨1, "Production".data⟩, ⟨2, "Staging".data⟩]
        [[⟨1, "Archived".data⟩, ⟨2, "Archived".data⟩]]).1.countP isTransitionEv = 2 ∧
     (processModel "m".data [⟨1, "Production".data⟩, ⟨2, "Staging".data⟩]
        [[⟨1, "Archived".data⟩, ⟨2, "Archived".data⟩]]).1.countP isDeleteModelEv = 1 ∧
     delOnlyAfterClean false
       (processModel "m".data [⟨1, "Production".data⟩, ⟨2, "Staging".data⟩]
          [[⟨1, "Archived".data⟩, ⟨2, "Archived".data⟩]]).1 = true) :=
  ⟨⟨by decide, by decide, by decide⟩,
   mlflow_c2_staged_deletion "m".data ⟨1, "Production".data⟩ ⟨2, "Staging".data⟩
     [[⟨1, "Archived".data⟩, ⟨2, "Archived".data⟩]] (by decide) (by decide) (by decide)⟩

/-- C5: in both embodiments of the idempotent drop primitive (`_drop_catalog`
and `_drop_schema` via `_drop_database`), once the guard/lookup passes, an
`AnalysisException` from the drop statement (the class covering
"resource not found" and concurrent-modification/analysis races) is
suppressed and the handler still returns `true`; any other error from the
drop propagates. -/
theorem tryDrop_c5_suppression :
    (∀ env : Env, env.createCatalog = true →
      env.catalogDropOutcome env.catalogName = Except.error SqlErr.analysisException →
      drop_catalog env = ⟨[Event.dropCatalogSql env.catalogName], true, none⟩) ∧
    (∀ env : Env, ∀ m : Str, env.createCatalog = true →
      env.catalogDropOutcome env.catalogName = Except.error (SqlErr.otherError m) →
      (drop_catalog env).err = some (PErr.sql m)) ∧
    (∀ env : Env, env.createCatalog = false →
      env.showDatabasesResult.contains env.schemaName = true →
      env.dbDropOutcome env.schemaName = Except.error SqlErr.analysisException →
      (drop_schema env).status = true ∧ (drop_schema env).err = none) ∧
    (∀ env : Env, ∀ m : Str, env.createCatalog = false →
      env.showDatabasesResult.contains env.schemaName = true →
      env.dbDropOutcome env.schemaName = Except.error (SqlErr.otherError m) →
      (drop_schema env).status = true ∧ (drop_schema env).err = some (PErr.sql m)) := by
  refine ⟨?_, ?_, ?_, ?_⟩
  · intro env h1 h2
    simp [drop_catalog, h1, h2]
  · intro env m h1 h2
    simp [drop_catalog, h1, h2]
  · intro env h1 h2 h3
    have h4 : env.schemaName ∈ env.showDatabasesResult := by simpa using h2
    simp [drop_schema, h1, h4, drop_database, h3]
  · intro env m h1 h2 h3
    have h4 : env.schemaName ∈ env.showDatabasesResult := by simpa using h2
    simp [drop_schema, h1, h4, drop_database, h3]

/-- Witness for C5 at concrete platform states. -/
theorem tryDrop_c5_suppression_witness :
    drop_catalog envC5a = ⟨[Event.dropCatalogSql envC5a.catalogName], true, none⟩ ∧
    (drop_schema envC5b).status = true ∧ (drop_schema envC5b).err = none :=
  ⟨tryDrop_c5_suppression.1 envC5a (by rfl) (by rfl),
   tryDrop_c5_suppression.2.2.1 envC5b (by rfl) (by decide) (by rfl)⟩

/-- C6: the archive-cache cleanup step guards the recursive delete of the
archives path on the existence of the *datasets* path (workspace_cleaner.py
line 107), so it deletes the archives path when only the datasets path
exists, and skips the delete when only the archives path exists — against
the documented contract that each delete is guarded by that same path's
existence. -/
theorem reset_archives_c6_bug :
    envC6a.archivesExists = false ∧
    reset_archives envC6a = [Event.rmPath envC6a.archivesPath true] ∧
    envC6b.archivesExists = true ∧
    reset_archives envC6b = [] ∧
    reset_datasets envC6b = [] ∧
    reset_working_dir envC6b = [] := by
  decide

/-- C8: when the serving-endpoint listing raises a `DatabricksApiException`,
the endpoint handler treats an HTTP 404 with error code `FEATURE_DISABLED`
as an empty candidate list — returning `false`, raising nothing, and issuing
no endpoint delete — and re-raises any other exception. -/
theorem endpoints_c8_feature_disabled (env : Env) (cache : Option Str) (lo : Bool)
    (e : ApiException) :
    (cleanup_mlflow_endpoints { env with endpointsListing := Except.error e } cache lo).1 =
      (if e.http_code == 404 && e.error_code == "FEATURE_DISABLED".data then
        ⟨[Event.listEndpoints, Event.printWarning], false, none⟩
      else ⟨[Event.listEndpoints], false, some (PErr.api e)⟩) := by
  cases hc : (e.http_code == 404 && e.error_code == "FEATURE_DISABLED".data) <;>
    simp [cleanup_mlflow_endpoints, hc]

/-- C9: the catalog drop and the schema drop are governed by the
`create_catalog` flag: the catalog drop returns `true` exactly when the
lesson creates a catalog, the schema drop acts only when it does not (and
then returns `true` iff the schema is listed), and at most one of the two
ever issues a destructive call. -/
theorem namespace_c9_exclusive (env : Env) :
    (drop_catalog env).status = env.createCatalog ∧
    (if env.createCatalog then drop_schema env = ⟨[], false, none⟩
     else drop_catalog env = ⟨[], false, none⟩) ∧
    (drop_schema env).status =
      (!env.createCatalog && env.showDatabasesResult.contains env.schemaName) ∧
    ((drop_catalog env).events.countP isCleanupEv = 0 ∨
     (drop_schema env).events.countP isCleanupEv = 0) := by
  cases hcc : env.createCatalog with
  | true =>
    refine ⟨?_, ?_, ?_, Or.inr ?_⟩
    · cases ho : env.catalogDropOutcome env.catalogName with
      | ok u => simp [drop_catalog, hcc, ho]
      | error se => cases se <;> simp [drop_catalog, hcc, ho]
    · simp [drop_schema, hcc]
    · simp [drop_schema, hcc]
    · simp [drop_schema, hcc]
  | false =>
    refine ⟨?_, ?_, ?_, Or.inl ?_⟩
    · simp [drop_catalog, hcc]
    · simp [drop_catalog, hcc]
    · by_cases hs : env.schemaName ∈ env.showDatabasesResult
      · simp [drop_schema, hcc, hs]
      · simp [drop_schema, hcc, hs]
    · simp [drop_catalog, hcc]

/-- C10: `_get_unique_name` is memoized — with a populated cache every call
returns the cached value and ignores `lesson_only`; in particular a first
call with `lesson_only = true` (which caches the session-scoped name)
followed by a call with `lesson_only = false` still returns the
session-scoped name, not the workspace-scoped one. -/
theorem unique_name_c10_memoized (env : Env) (b1 b2 : Bool) (v : Str) :
    get_unique_name env (some v) b1 = (v, some v) ∧
    (get_unique_name env none true).1 = env.uniqueNameLesson ∧
    (get_unique_name env ((get_unique_name env none true).2) b2).1
      = env.uniqueNameLesson := by
  exact ⟨rfl, rfl, rfl⟩

/-- C4 counterexample: on an already-clean environment (no streams, no
matching ML resources, no matching schema, no working directory) whose
lesson is configured to create a catalog, a session reset still issues one
destructive call (the unconditional `DROP CATALOG IF EXISTS`) and does not
print "No action taken". -/
theorem reset_lesson_c4_counterexample :
    envC4.activeStreams = [] ∧
    envC4.endpointsListing = Except.ok [] ∧
    envC4.modelNames = [] ∧
    envC4.experiments = [] ∧
    envC4.showDatabasesResult = [] ∧
    envC4.workingDirExists = false ∧
    (reset_lesson envC4 none).err = none ∧
    (reset_lesson envC4 none).noActionPrinted = false ∧
    (reset_lesson envC4 none).events.countP isCleanupEv = 1 := by
  refine ⟨by rfl, by rfl, by rfl, by rfl, by rfl, by rfl, by decide, by decide, by decide⟩

/-- C4 (amended): a second session reset on an already-clean environment —
no active streams, no matching endpoints / models / experiments, no matching
schema, no working directory — completes without error, issues no
destructive (delete/drop/stop) call, and prints "No action taken", provided
the lesson is not configured to create a catalog. -/
theorem reset_lesson_c4_idempotent (env : Env) (cache : Option Str) (epNames : List Str)
    (hstreams : env.activeStreams = [])
    (hep1 : env.endpointsListing = Except.ok epNames)
    (hep2 : matchedCandidates true (cache.getD env.uniqueNameLesson) epNames = [])
    (hmod : matchedCandidates true (cache.getD env.uniqueNameLesson) env.modelNames = [])
    (hexp : env.experiments.filter (fun n =>
        List.isPrefixOf (cache.getD env.uniqueNameLesson)
          ((splitOnChar '/' n).getLastD [])) = [])
    (hcc : env.createCatalog = false)
    (hschema : env.schemaName ∉ env.showDatabasesResult)
    (hwd : env.workingDirExists = false) :
    (reset_lesson env cache).err = none ∧
    (reset_lesson env cache).noActionPrinted = true ∧
    (reset_lesson env cache).events.countP isCleanupEv = 0 := by
  have hg1 : get_unique_name env cache true
      = (cache.getD env.uniqueNameLesson, some (cache.getD env.uniqueNameLesson)) := by
    cases cache <;> rfl
  have e1 : stop_all_streams env = ⟨[], false, none⟩ := by
    simp [stop_all_streams, hstreams]
  have e2 : cleanup_mlflow_endpoints env cache true
      = (⟨[Event.listEndpoints], false, none⟩, some (cache.getD env.uniqueNameLesson)) := by
    simp [cleanup_mlflow_endpoints, hg1, hep1, hep2]
  have e3 : cleanup_mlflow_models env (some (cache.getD env.uniqueNameLesson)) true
      = (⟨[Event.listModels], false, none⟩, some (cache.getD env.uniqueNameLesson)) := by
    simp [cleanup_mlflow_models, get_unique_name, hmod]
  have e4 : cleanup_experiments env (some (cache.getD env.uniqueNameLesson)) true
      = (⟨[Event.listExperiments], false, none⟩, some (cache.getD env.uniqueNameLesson)) := by
    have hexp2 : ∀ x ∈ env.experiments,
        ¬(cache.getD env.uniqueNameLesson <+: (splitOnChar '/' x).getLast?.getD []) := by
      simpa using hexp
    simp [cleanup_experiments, get_unique_name]
    exact hexp2
  have e5 : drop_catalog env = ⟨[], false, none⟩ := by
    simp [drop_catalog, hcc]
  have e6 : drop_schema env = ⟨[Event.showDatabases], false, none⟩ := by
    simp [drop_schema, hcc, hschema]
  have e7 : cleanup_working_dir env = ⟨[], false, none⟩ := by
    simp [cleanup_working_dir, hwd]
  cases henv : env.enableMlSupport <;>
    simp [reset_lesson, henv, e1, e2, e3, e4, e5, e6, e7, runSteps, isCleanupEv,
      List.countP_cons]

/-- Witness for C4 (amended) at the concrete clean platform state. -/
theorem reset_lesson_c4_idempotent_witness :
    (envBase.activeStreams = [] ∧
     envBase.endpointsListing = Except.ok [] ∧
     envBase.createCatalog = false ∧
     envBase.schemaName ∉ envBase.showDatabasesResult ∧
     envBase.workingDirExists = false) ∧
    ((reset_lesson envBase none).err = none ∧
     (reset_lesson envBase none).noActionPrinted = true ∧
     (reset_lesson envBase none).events.countP isCleanupEv = 0) :=
  ⟨⟨by rfl, by rfl, by rfl, by decide, by rfl⟩,
   reset_lesson_c4_idempotent envBase none [] (by rfl) (by rfl) (by rfl) (by rfl)
     (by rfl) (by rfl) (by decide) (by rfl)⟩

/-- C7 (amended): for session reset, the neutral "No action taken" line is
printed iff every handler step returned `false` (the Sequencer ORs the
outcomes), for every completed run; workspace reset, however, discards all
handler outcomes and never prints the neutral line. -/
theorem sequencer_c7_or_aggregation (env : Env) (cache : Option Str)
    (h : (reset_lesson env cache).err = none) :
    ((reset_lesson env cache).noActionPrinted = true ↔
      (reset_lesson env cache).statuses.all (fun b => !b) = true) ∧
    (reset_learning_environment env cache).noActionPrinted = false := by
  refine ⟨?_, rfl⟩
  have e : (reset_lesson env cache).noActionPrinted
      = (((reset_lesson env cache).err == none)
          && (reset_lesson env cache).statuses.all (fun b => !b)) := rfl
  rw [e, h]
  simp

/-- Witness for C7 (amended) at the concrete clean platform state. -/
theorem sequencer_c7_or_aggregation_witness :
    (reset_lesson envBase none).err = none ∧
    (((reset_lesson envBase none).noActionPrinted = true ↔
       (reset_lesson envBase none).statuses.all (fun b => !b) = true) ∧
     (reset_learning_environment envBase none).noActionPrinted = false) :=
  ⟨by decide, sequencer_c7_or_aggregation envBase none (by decide)⟩

/-- C7 counterexample: a workspace reset on a clean environment completes
with every handler step returning `false`, yet the neutral "No action taken"
line is not printed — `reset_learning_environment` discards the outcomes and
prints its completion line unconditionally. -/
theorem sequencer_c7_counterexample :
    (reset_learning_environment envBase none).err = none ∧
    (reset_learning_environment envBase none).statuses.all (fun b => !b) = true ∧
    (reset_learning_environment envBase none).noActionPrinted = false := by
  refine ⟨by decide, by decide, by rfl⟩
